import Mathlib

set_option maxHeartbeats 1000000

/-!
# Verification of the BMW listings dashboard (`src/app.py`)

Shallow embedding of the dashboard's logical core:

* a raw CSV cell is a `RawVal`: `num q` is a cell whose text parses as a
  number (pandas `to_numeric` succeeds), `text s` a cell holding
  non-numeric text, `missing` an empty cell (pandas `NaN`);
* column presence (`"col" in df.columns`) is tracked by a record of
  `Cols` flags carried alongside the rows;
* `load` embeds `load_data` (app.py lines 6-16): strip the `model`
  strings, coerce the six numeric columns with non-numeric values
  becoming missing, then drop rows missing `price` or `year` when those
  columns exist;
* the sidebar-default selection, the five-step filter chain
  (app.py lines 44-55), the metrics, the chart/table rendering and the
  CSV export of `main` are embedded below, with Python exceptions
  (`KeyError`, `ValueError` from `int(NaN)`, plotly missing-column
  errors) modelled by `Except String`.
-/

/-- One raw CSV cell, as pandas sees it after parsing the file. -/
inductive RawVal where
  | num (q : ℚ)
  | text (s : String)
  | missing
  deriving DecidableEq, Repr

/-- Which of the recognized columns are present in the table
(`"col" in df.columns`). -/
structure Cols where
  hasModel : Bool := false
  hasYear : Bool := false
  hasPrice : Bool := false
  hasMileage : Bool := false
  hasTax : Bool := false
  hasMpg : Bool := false
  hasEngineSize : Bool := false
  hasTransmission : Bool := false
  hasFuelType : Bool := false
  deriving DecidableEq, Repr

/-- One raw row of the CSV file.  A cell of an absent column is ignored
by `load`. -/
structure RawRow where
  model : RawVal := .missing
  year : RawVal := .missing
  price : RawVal := .missing
  mileage : RawVal := .missing
  tax : RawVal := .missing
  mpg : RawVal := .missing
  engineSize : RawVal := .missing
  transmission : RawVal := .missing
  fuelType : RawVal := .missing
  deriving DecidableEq, Repr

/-- The raw table produced by `pd.read_csv`. -/
structure RawTable where
  cols : Cols
  rows : List RawRow
  deriving DecidableEq, Repr

/-- One loaded row: numeric cells are `Option ℚ` (`none` = `NaN`),
categorical cells `Option String`. -/
structure Row where
  model : Option String := none
  year : Option ℚ := none
  price : Option ℚ := none
  mileage : Option ℚ := none
  tax : Option ℚ := none
  mpg : Option ℚ := none
  engineSize : Option ℚ := none
  transmission : Option String := none
  fuelType : Option String := none
  deriving DecidableEq, Repr

/-- The loaded dataframe returned by `load_data`. -/
structure Dataset where
  cols : Cols
  rows : List Row
  deriving DecidableEq, Repr

/-- Python `str.strip()` on the underlying character list. -/
def stripChars (l : List Char) : List Char :=
  ((l.dropWhile Char.isWhitespace).reverse.dropWhile Char.isWhitespace).reverse

/-- Python `str.strip()`. -/
def stripStr (s : String) : String := ⟨stripChars s.data⟩

/-- Pandas `astype(str)` on one cell: a missing value becomes the string
literal "nan". -/
def asString : RawVal → String
  | .num q => toString q
  | .text s => s
  | .missing => "nan"

/-- Pandas `pd.to_numeric(-, errors="coerce")` on one cell: non-numeric
content becomes missing instead of raising. -/
def toNumeric : RawVal → Option ℚ
  | .num q => some q
  | .text _ => none
  | .missing => none

/-- An untouched categorical cell as the filter sees it: a present value
(numeric cells keep their printed form), or `NaN`. -/
def asCat : RawVal → Option String
  | .num q => some (toString q)
  | .text s => some s
  | .missing => none

/-- Per-row work of `load_data` (app.py lines 10-15): strip `model`
(missing values having become the string "nan" via `astype(str)`),
coerce the six numeric columns; cells of absent columns stay absent. -/
def loadRow (c : Cols) (r : RawRow) : Row where
  model := if c.hasModel then some (stripStr (asString r.model)) else none
  year := if c.hasYear then toNumeric r.year else none
  price := if c.hasPrice then toNumeric r.price else none
  mileage := if c.hasMileage then toNumeric r.mileage else none
  tax := if c.hasTax then toNumeric r.tax else none
  mpg := if c.hasMpg then toNumeric r.mpg else none
  engineSize := if c.hasEngineSize then toNumeric r.engineSize else none
  transmission := if c.hasTransmission then asCat r.transmission else none
  fuelType := if c.hasFuelType then asCat r.fuelType else none

/-- The `dropna` keep-condition of app.py line 16: the subset is
`[c for c in ["price", "year"] if c in df.columns]`. -/
def keepRow (c : Cols) (r : Row) : Bool :=
  (!c.hasPrice || r.price.isSome) && (!c.hasYear || r.year.isSome)

/-- `load_data` (app.py lines 6-16). -/
def load (t : RawTable) : Dataset where
  cols := t.cols
  rows := (t.rows.map (loadRow t.cols)).filter (keepRow t.cols)

/-- Python `int()` on a numeric value: truncation toward zero. -/
def pyInt (q : ℚ) : Int := q.num.tdiv q.den

/-- A sidebar selection (app.py lines 27-42): the multiselect choices and
the two slider ranges. -/
structure Selection where
  models : List String := []
  yearLo : Int := 0
  yearHi : Int := 0
  priceLo : Int := 0
  priceHi : Int := 0
  trans : List String := []
  fuels : List String := []
  deriving DecidableEq, Repr

/-- Insert a string into a sorted list of strings. -/
def insertSorted (a : String) : List String → List String
  | [] => [a]
  | b :: l => if a ≤ b then a :: b :: l else b :: insertSorted a l

/-- Stable sort of a list of strings (Python `sorted`). -/
def sortStrings : List String → List String
  | [] => []
  | a :: l => insertSorted a (sortStrings l)

/-- `sorted(series.dropna().unique())`. -/
def uniqueSorted (l : List String) : List String :=
  sortStrings l.dedup

/-- Multiselect options for `Model` (app.py line 27). -/
def availableModels (d : Dataset) : List String :=
  if d.cols.hasModel then uniqueSorted (d.rows.filterMap Row.model) else []

/-- Multiselect options for `Transmission` (app.py line 38). -/
def availableTrans (d : Dataset) : List String :=
  if d.cols.hasTransmission then uniqueSorted (d.rows.filterMap Row.transmission) else []

/-- Multiselect options for `Fuel Type` (app.py line 41). -/
def availableFuels (d : Dataset) : List String :=
  if d.cols.hasFuelType then uniqueSorted (d.rows.filterMap Row.fuelType) else []

/-- Common shape of the two slider-bound computations
(`int(df[col].min()) if col in df.columns else 0`, same for the max):
the column's present values are reduced by `min`/`max` (pandas skips
missing values), then truncated by `int()`, which raises `ValueError` on
the `NaN` an all-missing or empty column produces. -/
def colBounds (has : Bool) (vals : List ℚ) : Except String (Int × Int) :=
  if has then
    match vals.min?, vals.max? with
    | some lo, some hi => .ok (pyInt lo, pyInt hi)
    | _, _ => .error "ValueError: cannot convert float NaN to integer"
  else .ok (0, 0)

/-- Slider bounds for `Year` (app.py lines 30-31). -/
def yearBounds (d : Dataset) : Except String (Int × Int) :=
  colBounds d.cols.hasYear (d.rows.filterMap Row.year)

/-- Slider bounds for `Price` (app.py lines 34-35). -/
def priceBounds (d : Dataset) : Except String (Int × Int) :=
  colBounds d.cols.hasPrice (d.rows.filterMap Row.price)

/-- The two slider-bound computations run at startup (app.py lines 30-36). -/
def startupBounds (d : Dataset) : Except String ((Int × Int) × (Int × Int)) := do
  let yb ← yearBounds d
  let pb ← priceBounds d
  pure (yb, pb)

/-- The selection rendered by default: every multiselect at its full
option list, both sliders at their full range (app.py lines 27-42). -/
def defaultSelection (d : Dataset) : Except String Selection := do
  let yb ← yearBounds d
  let pb ← priceBounds d
  pure { models := availableModels d
         yearLo := yb.1, yearHi := yb.2
         priceLo := pb.1, priceHi := pb.2
         trans := availableTrans d
         fuels := availableFuels d }

/-- The `between` predicate of the `Year` filter (app.py line 49),
inclusive on both bounds; a missing value compares false. -/
def yearPred (s : Selection) (r : Row) : Bool :=
  match r.year with
  | some y => decide ((s.yearLo : ℚ) ≤ y) && decide (y ≤ (s.yearHi : ℚ))
  | none => false

/-- The `between` predicate of the `Price` filter (app.py line 51). -/
def pricePred (s : Selection) (r : Row) : Bool :=
  match r.price with
  | some p => decide ((s.priceLo : ℚ) ≤ p) && decide (p ≤ (s.priceHi : ℚ))
  | none => false

/-- `isin` membership for a categorical cell: `NaN` is in no list. -/
def catIsin (sel : List String) (v : Option String) : Bool :=
  match v with
  | some x => sel.contains x
  | none => false

/-- Common shape of the three categorical filter steps
(`if selected: df_filtered = df_filtered[df_filtered[key].isin(selected)]`):
skipped when nothing is selected, otherwise the column access raises
`KeyError` if the column is absent, else keeps the selected rows. -/
def catStep (sel : List String) (has : Bool) (key : String)
    (get : Row → Option String) (v : List Row) : Except String (List Row) :=
  if sel.isEmpty then .ok v
  else if has then .ok (v.filter (fun r => catIsin sel (get r)))
  else .error ("KeyError: " ++ key)

/-- Common shape of the two range filter steps, applied iff the column
exists in `df`. -/
def rangeStep (has : Bool) (pred : Row → Bool) (v : List Row) : List Row :=
  if has then v.filter pred else v

/-- The `Model` filter step (app.py lines 46-47). -/
def modelStep (c : Cols) (s : Selection) (v : List Row) : Except String (List Row) :=
  catStep s.models c.hasModel "model" Row.model v

/-- The `Year` filter step (app.py lines 48-49). -/
def yearStep (c : Cols) (s : Selection) (v : List Row) : List Row :=
  rangeStep c.hasYear (yearPred s) v

/-- The `Price` filter step (app.py lines 50-51). -/
def priceStep (c : Cols) (s : Selection) (v : List Row) : List Row :=
  rangeStep c.hasPrice (pricePred s) v

/-- The `Transmission` filter step (app.py lines 52-53). -/
def transStep (c : Cols) (s : Selection) (v : List Row) : Except String (List Row) :=
  catStep s.trans c.hasTransmission "transmission" Row.transmission v

/-- The `Fuel Type` filter step (app.py lines 54-55). -/
def fuelStep (c : Cols) (s : Selection) (v : List Row) : Except String (List Row) :=
  catStep s.fuels c.hasFuelType "fuelType" Row.fuelType v

/-- The whole filter chain of app.py lines 44-55, in source order. -/
def applyFilters (d : Dataset) (s : Selection) : Except String (List Row) := do
  let v1 ← modelStep d.cols s d.rows
  let v2 := yearStep d.cols s v1
  let v3 := priceStep d.cols s v2
  let v4 ← transStep d.cols s v3
  fuelStep d.cols s v4

/-- The `Avg Price` metric (app.py line 62):
`df_filtered['price'].mean() if not df_filtered.empty else 0`.  The
condition is evaluated first, so an empty view yields `0` without
touching the column; on a non-empty view the column access raises
`KeyError` when `price` is absent, and the mean skips missing values. -/
def avgPrice (c : Cols) (v : List Row) : Except String ℚ :=
  if v.isEmpty then .ok 0
  else if c.hasPrice then
    .ok ((v.filterMap Row.price).sum / ((v.filterMap Row.price).length : ℚ))
  else .error "KeyError: price"

/-- The `Avg Mileage` metric body (app.py line 65), reached only when the
`mileage` column exists (line 64). -/
def avgMileage (c : Cols) (v : List Row) : Except String ℚ :=
  if v.isEmpty then .ok 0
  else if c.hasMileage then
    .ok ((v.filterMap Row.mileage).sum / ((v.filterMap Row.mileage).length : ℚ))
  else .error "KeyError: mileage"

/-- The `Listings by Model` grouping (app.py lines 88-89):
`df_filtered["model"].value_counts()` raises `KeyError` when the column
is absent; otherwise one `(model, count)` pair per distinct value,
missing values skipped.  The descending-count display order is
abstracted (the spec fixes no order). -/
def modelCounts (c : Cols) (v : List Row) : Except String (List (String × Nat)) :=
  if c.hasModel then
    .ok ((v.filterMap Row.model).dedup.map
      (fun m => (m, (v.filterMap Row.model).count m)))
  else .error "KeyError: model"

/-- The rendering pass of `main` after filtering (app.py lines 57-103):
metrics, price histogram, price-vs-mileage scatter (whose `hover_data`
names `model` and `year` and whose axes name `mileage` and `price`),
per-model counts, price-by-year box plot, data table and CSV download.
A chart referring to an absent column raises. -/
def display (c : Cols) (v : List Row) : Except String Unit := do
  let _ ← avgPrice c v
  let _ ← if c.hasMileage then do
      let _ ← avgMileage c v
      pure ()
    else pure ()
  let _ ← if c.hasPrice then pure ()
    else Except.error "ValueError: histogram x not a column: price"
  let _ ← if c.hasMileage then
      if c.hasPrice && c.hasModel && c.hasYear then pure ()
      else Except.error "ValueError: scatter column missing"
    else pure ()
  let _ ← modelCounts c v
  let _ ← if c.hasYear then
      if c.hasPrice then pure ()
      else Except.error "ValueError: box y not a column: price"
    else pure ()
  pure ()

/-- Pandas' default NA sentinel strings: a CSV field that is empty or
equal to one of these is read back as missing by `read_csv`. -/
def isNaString (s : String) : Bool :=
  decide (s ∈ ["", "#N/A", "#N/A N/A", "#NA", "-1.#IND", "-1.#QNAN", "-NaN",
    "-nan", "1.#IND", "1.#QNAN", "<NA>", "N/A", "NA", "NULL", "NaN", "None",
    "n/a", "nan", "null"])

/-- Composite effect of `to_csv` followed by `read_csv` on a categorical
cell: a missing value is written as an empty field and read back as
missing, a string that is empty or an NA sentinel also collapses to
missing on re-parse, and any other string survives verbatim. -/
def strCell : Option String → RawVal
  | some s => if isNaString s then .missing else .text s
  | none => .missing

/-- A categorical cell that survives a CSV round trip: absent, or a
string `read_csv` does not treat as missing. -/
def noNaCell (o : Option String) : Bool :=
  o.all (fun x => !(isNaString x))

/-- Encode a loaded numeric cell back into a CSV cell. -/
def numCell : Option ℚ → RawVal
  | some q => .num q
  | none => .missing

/-- One row of the exported CSV (app.py line 102). -/
def exportRow (r : Row) : RawRow where
  model := strCell r.model
  year := numCell r.year
  price := numCell r.price
  mileage := numCell r.mileage
  tax := numCell r.tax
  mpg := numCell r.mpg
  engineSize := numCell r.engineSize
  transmission := strCell r.transmission
  fuelType := strCell r.fuelType

/-- `df_filtered.to_csv(index=False)` (app.py line 102): the exported
file has the view's columns and one record per row of the view. -/
def exportView (c : Cols) (v : List Row) : RawTable where
  cols := c
  rows := v.map exportRow

/-- One full dashboard run on the table at the load path and the user's
sidebar selection: load, compute the slider bounds, filter, render;
returns the filtered view.  Any Python exception along the way is the
error case. -/
def runApp (t : RawTable) (s : Selection) : Except String (List Row) := do
  let d := load t
  let _ ← startupBounds d
  let v ← applyFilters d s
  let _ ← display d.cols v
  pure v

/-- A selection constructible through the sidebar: each multiselect's
choices come from the option list the dataset offers (app.py lines
27-42), so a dimension whose column is absent always has an empty
selected set. -/
def SelOk (d : Dataset) (s : Selection) : Prop :=
  s.models ⊆ availableModels d ∧ s.trans ⊆ availableTrans d ∧
    s.fuels ⊆ availableFuels d

deriving instance DecidableEq for Except

/-- The shape every row of a loaded dataset has: stripped model string
when the column exists, `none` in every absent column, and a present
`price`/`year` whenever those columns exist (the `dropna` guarantee). -/
def LoadedRow (c : Cols) (r : Row) : Prop :=
  (c.hasModel = true → ∃ s, r.model = some (stripStr s)) ∧
  (c.hasModel = false → r.model = none) ∧
  (c.hasYear = false → r.year = none) ∧
  (c.hasPrice = false → r.price = none) ∧
  (c.hasMileage = false → r.mileage = none) ∧
  (c.hasTax = false → r.tax = none) ∧
  (c.hasMpg = false → r.mpg = none) ∧
  (c.hasEngineSize = false → r.engineSize = none) ∧
  (c.hasTransmission = false → r.transmission = none) ∧
  (c.hasFuelType = false → r.fuelType = none) ∧
  (c.hasPrice = true → r.price.isSome = true) ∧
  (c.hasYear = true → r.year.isSome = true)

/-- The two-row table of the worked example in spec section 8. -/
def exTable : RawTable where
  cols := { hasModel := true, hasYear := true, hasPrice := true }
  rows := [{ model := .text "X5", year := .num 2018, price := .num 20000 },
           { model := .text "320i", year := .num 2020, price := .num 15000 }]

/-- The first row of `exTable` after loading. -/
def exRowX5 : Row where
  model := some "X5"
  year := some 2018
  price := some 20000

/-- The section-8 example selection: models {X5}, year [2018, 2018],
price [0, 100000]. -/
def exSel : Selection where
  models := ["X5"]
  yearLo := 2018
  yearHi := 2018
  priceLo := 0
  priceHi := 100000

/-- A selection putting both slider bounds on values `exRowX5` attains. -/
def edgeSel : Selection where
  yearLo := 2018
  yearHi := 2020
  priceLo := 20000
  priceHi := 90000

/-- A selection with a degenerate (lo > hi) year range. -/
def degSel : Selection where
  yearLo := 2021
  yearHi := 2020

/-- A one-row table whose price is the non-integer 1/2: the default
price-slider bounds truncate to [0, 0] and exclude the row. -/
def fracTable : RawTable where
  cols := { hasYear := true, hasPrice := true }
  rows := [{ year := .num 2020, price := .num (mkRat 1 2) }]

/-- The selection the sidebar renders by default on `load fracTable`. -/
def fracSel : Selection where
  yearLo := 2020
  yearHi := 2020
  priceLo := 0
  priceHi := 0

/-- A full-width table with one row whose values are all integers. -/
def intTable : RawTable where
  cols := { hasModel := true, hasYear := true, hasPrice := true,
            hasMileage := true, hasTax := true, hasMpg := true,
            hasEngineSize := true, hasTransmission := true, hasFuelType := true }
  rows := [{ model := .text "X5", year := .num 2018, price := .num 20000,
             mileage := .num 30000, tax := .num 145, mpg := .num 40,
             engineSize := .num 2, transmission := .text "Manual",
             fuelType := .text "Petrol" }]

/-- The single row of `intTable` after loading. -/
def intRow : Row where
  model := some "X5"
  year := some 2018
  price := some 20000
  mileage := some 30000
  tax := some 145
  mpg := some 40
  engineSize := some 2
  transmission := some "Manual"
  fuelType := some "Petrol"

/-- The selection the sidebar renders by default on `load intTable`. -/
def intSel : Selection where
  models := ["X5"]
  yearLo := 2018
  yearHi := 2018
  priceLo := 20000
  priceHi := 20000
  trans := ["Manual"]
  fuels := ["Petrol"]

/-- A table with `year` and `price` columns but no `model` column. -/
def noModelTable : RawTable where
  cols := { hasYear := true, hasPrice := true }
  rows := [{ year := .num 2020, price := .num 10000 }]

/-- A selection matching `noModelTable`'s single row. -/
def noModelSel : Selection where
  yearLo := 2020
  yearHi := 2020
  priceLo := 10000
  priceHi := 10000

/-- A table whose only row has a non-numeric price, so that nothing
survives loading. -/
def droppedTable : RawTable where
  cols := { hasYear := true, hasPrice := true }
  rows := [{ year := .num 2020, price := .text "N/A" }]

/-- A table whose model cell is whitespace only: `read_csv` keeps it as
a string (whitespace is not an NA sentinel) and `str.strip()` turns it
into the empty string. -/
def blankModelTable : RawTable where
  cols := { hasModel := true, hasYear := true, hasPrice := true }
  rows := [{ model := .text "  ", year := .num 2020, price := .num 100 }]

/-- A selection keeping `blankModelTable`'s single row. -/
def blankSel : Selection where
  yearLo := 2020
  yearHi := 2020
  priceLo := 100
  priceHi := 100

/-- The loaded row of `blankModelTable`: its model is the empty string. -/
def blankRow : Row where
  model := some ""
  year := some 2020
  price := some 100

/-! ## Helper lemmas: `str.strip` is idempotent -/

theorem dropWhile_idem (p : α → Bool) (l : List α) :
    (l.dropWhile p).dropWhile p = l.dropWhile p := by
  induction l with
  | nil => rfl
  | cons a l ih =>
    cases h : p a with
    | true => simp [List.dropWhile_cons, h, ih]
    | false => simp [List.dropWhile_cons, h]

theorem dropWhile_eq_self_of_append (p : α → Bool) (X t Y : List α)
    (hxy : X ++ t = Y) (hY : Y.dropWhile p = Y) : X.dropWhile p = X := by
  cases X with
  | nil => rfl
  | cons a X2 =>
    subst hxy
    rw [List.cons_append, List.dropWhile_cons] at hY
    rw [List.dropWhile_cons]
    cases h : p a with
    | false => rfl
    | true =>
      exfalso
      rw [h] at hY
      simp only [if_true] at hY
      have hlen : ((X2 ++ t).dropWhile p).length ≤ (X2 ++ t).length :=
        (List.dropWhile_sublist p).length_le
      rw [hY] at hlen
      simp at hlen

theorem stripChars_idem (l : List Char) :
    stripChars (stripChars l) = stripChars l := by
  have h1 : (l.dropWhile Char.isWhitespace).dropWhile Char.isWhitespace
      = l.dropWhile Char.isWhitespace := dropWhile_idem _ _
  have h2 : (stripChars l).dropWhile Char.isWhitespace = stripChars l := by
    have hsuf : (l.dropWhile Char.isWhitespace).reverse.dropWhile Char.isWhitespace
        <:+ (l.dropWhile Char.isWhitespace).reverse :=
      List.dropWhile_suffix Char.isWhitespace
    obtain ⟨t, ht⟩ := hsuf
    refine dropWhile_eq_self_of_append Char.isWhitespace (stripChars l) t.reverse
      (l.dropWhile Char.isWhitespace) ?_ h1
    have hr := congrArg List.reverse ht
    rw [List.reverse_append, List.reverse_reverse] at hr
    exact hr
  calc stripChars (stripChars l)
      = (((stripChars l).dropWhile Char.isWhitespace).reverse.dropWhile
          Char.isWhitespace).reverse := rfl
    _ = ((stripChars l).reverse.dropWhile Char.isWhitespace).reverse := by rw [h2]
    _ = ((((l.dropWhile Char.isWhitespace).reverse.dropWhile
          Char.isWhitespace).reverse).reverse.dropWhile Char.isWhitespace).reverse := rfl
    _ = ((l.dropWhile Char.isWhitespace).reverse.dropWhile Char.isWhitespace).reverse := by
          rw [List.reverse_reverse, dropWhile_idem]
    _ = stripChars l := rfl

theorem stripStr_idem (s : String) : stripStr (stripStr s) = stripStr s := by
  unfold stripStr
  exact congrArg String.mk (stripChars_idem s.data)

/-! ## Helper lemmas: cells and the loader invariant -/

theorem toNumeric_numCell (o : Option ℚ) : toNumeric (numCell o) = o := by
  cases o <;> rfl

theorem strCell_not_na {s : String} (h : isNaString s = false) :
    strCell (some s) = .text s := by
  simp [strCell, h]

theorem noNaCell_some {s : String} (h : noNaCell (some s) = true) :
    isNaString s = false := by
  have h2 : (!(isNaString s)) = true := h
  simpa using h2

theorem load_mem {t : RawTable} {r : Row} (h : r ∈ (load t).rows) :
    LoadedRow t.cols r ∧ ∃ raw ∈ t.rows, r = loadRow t.cols raw := by
  have h2 := h
  simp only [load, List.mem_filter, List.mem_map] at h2
  obtain ⟨⟨raw, hraw, hr⟩, hkeep⟩ := h2
  simp only [keepRow, Bool.and_eq_true, Bool.or_eq_true, Bool.not_eq_true'] at hkeep
  refine ⟨?_, raw, hraw, hr.symm⟩
  subst hr
  refine ⟨?_, ?_, ?_, ?_, ?_, ?_, ?_, ?_, ?_, ?_, ?_, ?_⟩ <;>
    intro hflag <;> simp_all [loadRow]


/-! ## Helper lemmas: the filter steps -/

theorem catIsin_iff (sel : List String) (v : Option String) :
    catIsin sel v = true ↔ ∃ x, v = some x ∧ x ∈ sel := by
  cases v with
  | none => simp [catIsin]
  | some x => simp [catIsin, List.contains_eq_any_beq]

theorem catStep_empty (has : Bool) (key : String) (get : Row → Option String)
    (v : List Row) : catStep [] has key get v = .ok v := by
  simp [catStep]

theorem catStep_sublist {sel : List String} {has : Bool} {key : String}
    {get : Row → Option String} {v w : List Row}
    (h : catStep sel has key get v = .ok w) : w.Sublist v := by
  unfold catStep at h
  split at h
  · cases h
    exact List.Sublist.refl v
  · split at h
    · cases h
      exact List.filter_sublist v
    · cases h

theorem catStep_ok (sel : List String) (has : Bool) (key : String)
    (get : Row → Option String) (v : List Row) (hsel : sel ≠ [] → has = true) :
    ∃ w, catStep sel has key get v = .ok w := by
  unfold catStep
  by_cases he : sel.isEmpty
  · exact ⟨v, by simp [he]⟩
  · have : has = true := hsel (by simpa [List.isEmpty_iff] using he)
    exact ⟨v.filter (fun r => catIsin sel (get r)), by simp [he, this]⟩

theorem catStep_keepAll {sel : List String} {has : Bool} {key : String}
    {get : Row → Option String} {v : List Row}
    (h : sel = [] ∨ (has = true ∧ ∀ r ∈ v, catIsin sel (get r) = true)) :
    catStep sel has key get v = .ok v := by
  rcases h with h | ⟨hhas, hall⟩
  · subst h
    exact catStep_empty has key get v
  · unfold catStep
    by_cases he : sel.isEmpty
    · simp [he]
    · simp [he, hhas, List.filter_eq_self.mpr hall]

theorem catStep_nil (sel : List String) (has : Bool) (key : String)
    (get : Row → Option String) (hsel : sel ≠ [] → has = true) :
    catStep sel has key get [] = .ok [] := by
  obtain ⟨w, hw⟩ := catStep_ok sel has key get [] hsel
  have := catStep_sublist hw
  simp only [List.sublist_nil] at this
  rw [this] at hw
  exact hw

theorem rangeStep_sublist (has : Bool) (pred : Row → Bool) (v : List Row) :
    (rangeStep has pred v).Sublist v := by
  unfold rangeStep
  split
  · exact List.filter_sublist v
  · exact List.Sublist.refl v

theorem rangeStep_keepAll {has : Bool} {pred : Row → Bool} {v : List Row}
    (h : ∀ r ∈ v, pred r = true) : rangeStep has pred v = v := by
  unfold rangeStep
  split
  · exact List.filter_eq_self.mpr h
  · rfl

theorem rangeStep_dropAll {pred : Row → Bool} {v : List Row}
    (h : ∀ r, pred r = false) : rangeStep true pred v = [] := by
  simp [rangeStep, List.filter_eq_nil_iff, h]

theorem rangeStep_nil (has : Bool) (pred : Row → Bool) :
    rangeStep has pred [] = [] := by
  unfold rangeStep
  split <;> rfl

/-! ## Helper lemmas: the whole filter chain -/

theorem applyFilters_sublist {d : Dataset} {s : Selection} {v : List Row}
    (h : applyFilters d s = .ok v) : v.Sublist d.rows := by
  unfold applyFilters at h
  cases h1 : modelStep d.cols s d.rows with
  | error e => simp [h1, bind, Except.bind] at h
  | ok v1 =>
    simp only [h1, bind, Except.bind] at h
    cases h4 : transStep d.cols s (priceStep d.cols s (yearStep d.cols s v1)) with
    | error e => simp [h4, bind, Except.bind] at h
    | ok v4 =>
      simp only [h4, bind, Except.bind] at h
      have s5 : v.Sublist v4 := catStep_sublist h
      have s4 : v4.Sublist (priceStep d.cols s (yearStep d.cols s v1)) := catStep_sublist h4
      have s3 : (priceStep d.cols s (yearStep d.cols s v1)).Sublist (yearStep d.cols s v1) :=
        rangeStep_sublist _ _ _
      have s2 : (yearStep d.cols s v1).Sublist v1 := rangeStep_sublist _ _ _
      have s1 : v1.Sublist d.rows := catStep_sublist h1
      exact (((s5.trans s4).trans s3).trans s2).trans s1

theorem selOk_conds {d : Dataset} {s : Selection} (h : SelOk d s) :
    (s.models ≠ [] → d.cols.hasModel = true) ∧
      (s.trans ≠ [] → d.cols.hasTransmission = true) ∧
      (s.fuels ≠ [] → d.cols.hasFuelType = true) := by
  obtain ⟨h1, h2, h3⟩ := h
  refine ⟨fun hne => ?_, fun hne => ?_, fun hne => ?_⟩
  · by_contra hc
    simp only [Bool.not_eq_true] at hc
    rw [availableModels, hc] at h1
    exact hne (List.subset_nil.mp (by simpa using h1))
  · by_contra hc
    simp only [Bool.not_eq_true] at hc
    rw [availableTrans, hc] at h2
    exact hne (List.subset_nil.mp (by simpa using h2))
  · by_contra hc
    simp only [Bool.not_eq_true] at hc
    rw [availableFuels, hc] at h3
    exact hne (List.subset_nil.mp (by simpa using h3))

theorem applyFilters_ok {d : Dataset} {s : Selection} (h : SelOk d s) :
    ∃ v, applyFilters d s = .ok v := by
  obtain ⟨hm, ht, hf⟩ := selOk_conds h
  obtain ⟨v1, h1⟩ := catStep_ok s.models d.cols.hasModel "model" Row.model d.rows hm
  obtain ⟨v4, h4⟩ := catStep_ok s.trans d.cols.hasTransmission "transmission"
    Row.transmission (priceStep d.cols s (yearStep d.cols s v1)) ht
  obtain ⟨v5, h5⟩ := catStep_ok s.fuels d.cols.hasFuelType "fuelType" Row.fuelType v4 hf
  refine ⟨v5, ?_⟩
  unfold applyFilters modelStep transStep fuelStep
  simp [h1, h4, h5, bind, Except.bind]

/-! ## Helper lemmas: bounds, defaults, integrality -/

theorem pyInt_intCast (n : ℤ) : pyInt ((n : ℤ) : ℚ) = n := by
  simp [pyInt, Rat.num_intCast, Rat.den_intCast]

theorem listMin_le {l : List ℚ} {m x : ℚ} (h : l.min? = some m) (hx : x ∈ l) :
    m ≤ x :=
  (List.le_min?_iff (fun _ _ _ => le_min_iff) h).mp (le_refl m) x hx

theorem le_listMax {l : List ℚ} {m x : ℚ} (h : l.max? = some m) (hx : x ∈ l) :
    x ≤ m :=
  (List.max?_le_iff (fun _ _ _ => max_le_iff) h).mp (le_refl m) x hx

theorem listMin_mem {l : List ℚ} {m : ℚ} (h : l.min? = some m) : m ∈ l :=
  List.min?_mem (fun a b => min_choice a b) h

theorem listMax_mem {l : List ℚ} {m : ℚ} (h : l.max? = some m) : m ∈ l :=
  List.max?_mem (fun a b => max_choice a b) h

theorem colBounds_false (vals : List ℚ) : colBounds false vals = .ok (0, 0) := rfl

theorem colBounds_nil : colBounds true [] = .error
    "ValueError: cannot convert float NaN to integer" := rfl

theorem colBounds_ok_true {vals : List ℚ} {b : Int × Int}
    (h : colBounds true vals = .ok b) :
    ∃ lo hi, vals.min? = some lo ∧ vals.max? = some hi ∧ b = (pyInt lo, pyInt hi) := by
  unfold colBounds at h
  simp only [if_true] at h
  cases hmin : vals.min? with
  | none => rw [hmin] at h; cases h
  | some lo =>
    cases hmax : vals.max? with
    | none => rw [hmin, hmax] at h; cases h
    | some hi =>
      rw [hmin, hmax] at h
      cases h
      exact ⟨lo, hi, rfl, rfl, rfl⟩

theorem colBounds_ok_of_ne_nil (has : Bool) {vals : List ℚ}
    (h : has = true → vals ≠ []) : ∃ b, colBounds has vals = .ok b := by
  cases has with
  | false => exact ⟨(0, 0), rfl⟩
  | true =>
    cases hmin : vals.min? with
    | none => exact absurd (List.min?_eq_none_iff.mp hmin) (h rfl)
    | some lo =>
      cases hmax : vals.max? with
      | none => exact absurd (List.max?_eq_none_iff.mp hmax) (h rfl)
      | some hi =>
        refine ⟨(pyInt lo, pyInt hi), ?_⟩
        unfold colBounds
        rw [hmin, hmax]
        rfl

theorem mem_insertSorted (a x : String) (l : List String) :
    x ∈ insertSorted a l ↔ x = a ∨ x ∈ l := by
  induction l with
  | nil => simp [insertSorted]
  | cons b l ih =>
    unfold insertSorted
    split
    · simp
    · simp [ih]
      tauto

theorem mem_sortStrings (l : List String) (x : String) :
    x ∈ sortStrings l ↔ x ∈ l := by
  induction l with
  | nil => exact Iff.rfl
  | cons a l ih =>
    unfold sortStrings
    rw [mem_insertSorted, ih]
    simp

theorem mem_uniqueSorted (l : List String) (x : String) :
    x ∈ uniqueSorted l ↔ x ∈ l := by
  rw [uniqueSorted, mem_sortStrings, List.mem_dedup]

theorem defaultSelection_fields {d : Dataset} {s : Selection}
    (h : defaultSelection d = .ok s) :
    s.models = availableModels d ∧ s.trans = availableTrans d ∧
      s.fuels = availableFuels d ∧ yearBounds d = .ok (s.yearLo, s.yearHi) ∧
      priceBounds d = .ok (s.priceLo, s.priceHi) := by
  unfold defaultSelection at h
  cases hy : yearBounds d with
  | error e => simp [hy, bind, Except.bind] at h
  | ok yb =>
    cases hp : priceBounds d with
    | error e => simp [hy, hp, bind, Except.bind] at h
    | ok pb =>
      simp only [hy, hp, bind, Except.bind, pure, Except.pure, Except.ok.injEq] at h
      subst h
      exact ⟨rfl, rfl, rfl, rfl, rfl⟩

theorem selOk_default {d : Dataset} {s : Selection}
    (h : defaultSelection d = .ok s) : SelOk d s := by
  obtain ⟨h1, h2, h3, _, _⟩ := defaultSelection_fields h
  exact ⟨h1 ▸ List.Subset.refl _, h2 ▸ List.Subset.refl _, h3 ▸ List.Subset.refl _⟩

theorem yearPred_some {s : Selection} {r : Row} {q : ℚ} (h : r.year = some q) :
    yearPred s r = true ↔ ((s.yearLo : ℚ) ≤ q ∧ q ≤ (s.yearHi : ℚ)) := by
  simp [yearPred, h]

theorem pricePred_some {s : Selection} {r : Row} {q : ℚ} (h : r.price = some q) :
    pricePred s r = true ↔ ((s.priceLo : ℚ) ≤ q ∧ q ≤ (s.priceHi : ℚ)) := by
  simp [pricePred, h]

/-- A categorical step whose selected set is exactly the option list the
sidebar offers keeps every row, provided the column's values are either
all missing or all present. -/
theorem catStep_available {has : Bool} {get : Row → Option String} {v : List Row}
    {key : String} (sel : List String)
    (hsel : sel = if has then uniqueSorted (v.filterMap get) else [])
    (hall : (∀ r ∈ v, get r = none) ∨ (∀ r ∈ v, (get r).isSome = true)) :
    catStep sel has key get v = .ok v := by
  apply catStep_keepAll
  subst hsel
  cases has with
  | false => exact Or.inl rfl
  | true =>
    cases hall with
    | inl hn =>
      left
      have hnil : v.filterMap get = [] := by
        rw [List.filterMap_eq_nil_iff]
        exact hn
      simp [hnil, uniqueSorted, sortStrings]
    | inr hs =>
      right
      refine ⟨rfl, fun r hr => ?_⟩
      obtain ⟨x, hx⟩ := Option.isSome_iff_exists.mp (hs r hr)
      rw [catIsin_iff]
      exact ⟨x, hx, (mem_uniqueSorted _ _).mpr (List.mem_filterMap.mpr ⟨r, hr, hx⟩)⟩

/-- A range step whose bounds are the slider defaults computed from its
own column keeps every row, provided every value in the column is an
integer (so that the `int()` truncation loses nothing) and, when the
column exists, every row has a value (the loader guarantees this for
`year` and `price`). -/
theorem rangeStep_default {has : Bool} {v : List Row} {loB hiB : Int}
    {get : Row → Option ℚ} {pred : Row → Bool}
    (hpred : ∀ r q, get r = some q →
      (pred r = true ↔ ((loB : ℚ) ≤ q ∧ q ≤ (hiB : ℚ))))
    (hb : colBounds has (v.filterMap get) = .ok (loB, hiB))
    (hsome : has = true → ∀ r ∈ v, (get r).isSome = true)
    (hint : ∀ r ∈ v, ∀ q : ℚ, get r = some q → ∃ n : ℤ, q = (n : ℚ)) :
    rangeStep has pred v = v := by
  cases has with
  | false => rfl
  | true =>
    obtain ⟨lo, hi, hmin, hmax, hbb⟩ := colBounds_ok_true hb
    have hlo : loB = pyInt lo := congrArg Prod.fst hbb
    have hhi : hiB = pyInt hi := congrArg Prod.snd hbb
    apply rangeStep_keepAll
    intro r hr
    obtain ⟨q, hq⟩ := Option.isSome_iff_exists.mp (hsome rfl r hr)
    rw [hpred r q hq]
    have hqmem : q ∈ v.filterMap get := List.mem_filterMap.mpr ⟨r, hr, hq⟩
    obtain ⟨r0, hr0, hlo0⟩ := List.mem_filterMap.mp (listMin_mem hmin)
    obtain ⟨nlo, hnlo⟩ := hint r0 hr0 lo hlo0
    obtain ⟨r1, hr1, hhi1⟩ := List.mem_filterMap.mp (listMax_mem hmax)
    obtain ⟨nhi, hnhi⟩ := hint r1 hr1 hi hhi1
    constructor
    · have : (loB : ℚ) = lo := by
        rw [hlo, hnlo, pyInt_intCast]
      rw [this]
      exact listMin_le hmin hqmem
    · have : (hiB : ℚ) = hi := by
        rw [hhi, hnhi, pyInt_intCast]
      rw [this]
      exact le_listMax hmax hqmem

/-- Composing the five steps when each leaves the rows unchanged. -/
theorem applyFilters_keepAll {d : Dataset} {s : Selection}
    (hm : modelStep d.cols s d.rows = .ok d.rows)
    (hy : yearStep d.cols s d.rows = d.rows)
    (hp : priceStep d.cols s d.rows = d.rows)
    (ht : transStep d.cols s d.rows = .ok d.rows)
    (hf : fuelStep d.cols s d.rows = .ok d.rows) :
    applyFilters d s = .ok d.rows := by
  unfold applyFilters
  simp only [hm, bind, Except.bind, yearStep, priceStep] at *
  rw [hy, hp, ht]
  exact hf

/-! ## Claim C4 -/

/-- C4 (amended): for every loaded dataset, when every dimension of the
selection is at its rendered default (full option lists, slider ranges
at the bounds computed from the dataset), the filtered view equals the
full dataset — provided every `year` and `price` value is an integer
(otherwise the `int()` truncation of the slider bounds cuts fractional
extremes off) and each of the `transmission` and `fuelType` columns is
all-missing or all-present (a missing value fails the default `isin`
filter while a present one passes it). -/
theorem c4_default_selection_full_view (t : RawTable) (s : Selection)
    (hs : defaultSelection (load t) = .ok s)
    (hYint : ∀ r ∈ (load t).rows, ∀ q : ℚ, r.year = some q → ∃ n : ℤ, q = (n : ℚ))
    (hPint : ∀ r ∈ (load t).rows, ∀ q : ℚ, r.price = some q → ∃ n : ℤ, q = (n : ℚ))
    (hT : (∀ r ∈ (load t).rows, r.transmission = none) ∨
      (∀ r ∈ (load t).rows, r.transmission.isSome = true))
    (hF : (∀ r ∈ (load t).rows, r.fuelType = none) ∨
      (∀ r ∈ (load t).rows, r.fuelType.isSome = true)) :
    applyFilters (load t) s = .ok (load t).rows := by
  obtain ⟨hmod, htr, hfu, hyb, hpb⟩ := defaultSelection_fields hs
  apply applyFilters_keepAll
  · rw [modelStep, hmod]
    apply catStep_available
    · rfl
    · cases hmf : (load t).cols.hasModel with
      | false =>
        left
        intro r hr
        exact (load_mem hr).1.2.1 hmf
      | true =>
        right
        intro r hr
        obtain ⟨x, hx⟩ := (load_mem hr).1.1 hmf
        simp [hx]
  · rw [yearStep]
    apply rangeStep_default (fun r q hq => yearPred_some hq) hyb
    · intro hflag r hr
      exact (load_mem hr).1.2.2.2.2.2.2.2.2.2.2.2 hflag
    · exact hYint
  · rw [priceStep]
    apply rangeStep_default (fun r q hq => pricePred_some hq) hpb
    · intro hflag r hr
      exact (load_mem hr).1.2.2.2.2.2.2.2.2.2.2.1 hflag
    · exact hPint
  · rw [transStep, htr]
    apply catStep_available
    · rfl
    · exact hT
  · rw [fuelStep, hfu]
    apply catStep_available
    · rfl
    · exact hF

/-- Evaluating the filter chain from the results of its fallible steps. -/
theorem applyFilters_eq {d : Dataset} {s : Selection} {v1 v4 v5 : List Row}
    (h1 : modelStep d.cols s d.rows = .ok v1)
    (h4 : transStep d.cols s (priceStep d.cols s (yearStep d.cols s v1)) = .ok v4)
    (h5 : fuelStep d.cols s v4 = .ok v5) :
    applyFilters d s = .ok v5 := by
  unfold applyFilters
  simp only [h1, bind, Except.bind, h4, h5]

theorem yearPred_degenerate {s : Selection} (h : s.yearHi < s.yearLo) (r : Row) :
    yearPred s r = false := by
  unfold yearPred
  cases hy : r.year with
  | none => rfl
  | some y =>
    cases hlo : decide ((s.yearLo : ℚ) ≤ y) with
    | false => simp [hlo]
    | true =>
      cases hhi : decide (y ≤ (s.yearHi : ℚ)) with
      | false => simp [hlo, hhi]
      | true =>
        exfalso
        have h1 := of_decide_eq_true hlo
        have h2 := of_decide_eq_true hhi
        have h3 : (s.yearLo : ℚ) ≤ (s.yearHi : ℚ) := le_trans h1 h2
        have h4 : s.yearLo ≤ s.yearHi := by exact_mod_cast h3
        omega

theorem pricePred_degenerate {s : Selection} (h : s.priceHi < s.priceLo) (r : Row) :
    pricePred s r = false := by
  unfold pricePred
  cases hy : r.price with
  | none => rfl
  | some y =>
    cases hlo : decide ((s.priceLo : ℚ) ≤ y) with
    | false => simp [hlo]
    | true =>
      cases hhi : decide (y ≤ (s.priceHi : ℚ)) with
      | false => simp [hlo, hhi]
      | true =>
        exfalso
        have h1 := of_decide_eq_true hlo
        have h2 := of_decide_eq_true hhi
        have h3 : (s.priceLo : ℚ) ≤ (s.priceHi : ℚ) := le_trans h1 h2
        have h4 : s.priceLo ≤ s.priceHi := by exact_mod_cast h3
        omega

theorem applyFilters_degenerate_year {d : Dataset} {s : Selection} (h : SelOk d s)
    (hy : d.cols.hasYear = true) (hlt : s.yearHi < s.yearLo) :
    applyFilters d s = .ok [] := by
  obtain ⟨hm, ht, hf⟩ := selOk_conds h
  obtain ⟨v1, h1⟩ := catStep_ok s.models d.cols.hasModel "model" Row.model d.rows hm
  refine applyFilters_eq h1 ?_ (catStep_nil s.fuels d.cols.hasFuelType "fuelType" Row.fuelType hf)
  have hys : yearStep d.cols s v1 = [] := by
    rw [yearStep, hy]
    exact rangeStep_dropAll (yearPred_degenerate hlt)
  rw [hys, priceStep, rangeStep_nil]
  exact catStep_nil s.trans d.cols.hasTransmission "transmission" Row.transmission ht

theorem applyFilters_degenerate_price {d : Dataset} {s : Selection} (h : SelOk d s)
    (hp : d.cols.hasPrice = true) (hlt : s.priceHi < s.priceLo) :
    applyFilters d s = .ok [] := by
  obtain ⟨hm, ht, hf⟩ := selOk_conds h
  obtain ⟨v1, h1⟩ := catStep_ok s.models d.cols.hasModel "model" Row.model d.rows hm
  refine applyFilters_eq h1 ?_ (catStep_nil s.fuels d.cols.hasFuelType "fuelType" Row.fuelType hf)
  have hps : priceStep d.cols s (yearStep d.cols s v1) = [] := by
    rw [priceStep, hp]
    exact rangeStep_dropAll (pricePred_degenerate hlt)
  rw [hps]
  exact catStep_nil s.trans d.cols.hasTransmission "transmission" Row.transmission ht

/-! ## Helper lemmas: export and reload (round trip) -/

theorem keepRow_of_loaded {c : Cols} {r : Row} (h : LoadedRow c r) :
    keepRow c r = true := by
  obtain ⟨_, _, _, _, _, _, _, _, _, _, hp, hy⟩ := h
  unfold keepRow
  cases hpf : c.hasPrice with
  | false => cases hyf : c.hasYear with
    | false => simp
    | true => simp [hy hyf]
  | true => cases hyf : c.hasYear with
    | false => simp [hp hpf]
    | true => simp [hp hpf, hy hyf]

theorem loadRow_exportRow {c : Cols} {r : Row} (h : LoadedRow c r)
    (hmna : noNaCell r.model = true) (htna : noNaCell r.transmission = true)
    (hfna : noNaCell r.fuelType = true) :
    loadRow c (exportRow r) = r := by
  obtain ⟨h1, h2, h3, h4, h5, h6, h7, h8, h9, h10, _, _⟩ := h
  cases r with
  | mk model year price mileage tax mpg engineSize transmission fuelType =>
    have hmna2 : noNaCell model = true := hmna
    have htna2 : noNaCell transmission = true := htna
    have hfna2 : noNaCell fuelType = true := hfna
    simp only [loadRow, exportRow, Row.mk.injEq]
    refine ⟨?_, ?_, ?_, ?_, ?_, ?_, ?_, ?_, ?_⟩
    · cases hm : c.hasModel with
      | false => exact (h2 hm).symm
      | true =>
        obtain ⟨x, hx⟩ := h1 hm
        have hx2 : model = some (stripStr x) := hx
        have hna : isNaString (stripStr x) = false :=
          noNaCell_some (hx2 ▸ hmna2)
        rw [hx2, strCell_not_na hna]
        simp only [asString, if_true]
        rw [stripStr_idem]
    · cases hf : c.hasYear with
      | false => exact (h3 hf).symm
      | true => simp [toNumeric_numCell]
    · cases hf : c.hasPrice with
      | false => exact (h4 hf).symm
      | true => simp [toNumeric_numCell]
    · cases hf : c.hasMileage with
      | false => exact (h5 hf).symm
      | true => simp [toNumeric_numCell]
    · cases hf : c.hasTax with
      | false => exact (h6 hf).symm
      | true => simp [toNumeric_numCell]
    · cases hf : c.hasMpg with
      | false => exact (h7 hf).symm
      | true => simp [toNumeric_numCell]
    · cases hf : c.hasEngineSize with
      | false => exact (h8 hf).symm
      | true => simp [toNumeric_numCell]
    · cases hf : c.hasTransmission with
      | false => exact (h9 hf).symm
      | true =>
        cases htr : transmission with
        | none => rfl
        | some s =>
          have hna : isNaString s = false := noNaCell_some (htr ▸ htna2)
          rw [strCell_not_na hna]
          simp [asCat]
    · cases hf : c.hasFuelType with
      | false => exact (h10 hf).symm
      | true =>
        cases hfu : fuelType with
        | none => rfl
        | some s =>
          have hna : isNaString s = false := noNaCell_some (hfu ▸ hfna2)
          rw [strCell_not_na hna]
          simp [asCat]

theorem load_exportView {c : Cols} {v : List Row} (h : ∀ r ∈ v, LoadedRow c r)
    (hna : ∀ r ∈ v, noNaCell r.model = true ∧ noNaCell r.transmission = true ∧
      noNaCell r.fuelType = true) :
    load (exportView c v) = ⟨c, v⟩ := by
  unfold load exportView
  simp only [Dataset.mk.injEq, List.map_map]
  refine ⟨trivial, ?_⟩
  have hmap : v.map (loadRow c ∘ exportRow) = v := by
    have h2 : v.map (fun r => loadRow c (exportRow r)) = v.map (fun r => r) :=
      List.map_congr_left (fun r hr => loadRow_exportRow (h r hr)
        (hna r hr).1 (hna r hr).2.1 (hna r hr).2.2)
    simpa using h2
  rw [hmap]
  exact List.filter_eq_self.mpr (fun r hr => keepRow_of_loaded (h r hr))

/-- C4 counterexample: on `fracTable` (one row, price 1/2) the sidebar
defaults to price range [0, 0], and filtering with that default selection
empties the one-row dataset instead of returning it. -/
theorem c4_counterexample :
    defaultSelection (load fracTable) = .ok fracSel ∧
      applyFilters (load fracTable) fracSel = .ok [] ∧
      (load fracTable).rows = [{ year := some 2020, price := some (mkRat 1 2) }] := by
  decide

/-- C4 witness: on `intTable` every hypothesis of the amended claim holds
and the fully-default selection returns the whole dataset. -/
theorem c4_witness :
    defaultSelection (load intTable) = .ok intSel ∧
      applyFilters (load intTable) intSel = .ok (load intTable).rows := by
  have hrows : (load intTable).rows = [intRow] := by decide
  refine ⟨by decide, c4_default_selection_full_view intTable intSel (by decide)
    ?_ ?_ (Or.inr ?_) (Or.inr ?_)⟩
  · intro r hr q hq
    rw [hrows] at hr
    simp only [List.mem_singleton] at hr
    subst hr
    have hq2 : (2018 : ℚ) = q := Option.some.inj hq
    exact ⟨2018, by rw [← hq2]; norm_num⟩
  · intro r hr q hq
    rw [hrows] at hr
    simp only [List.mem_singleton] at hr
    subst hr
    have hq2 : (20000 : ℚ) = q := Option.some.inj hq
    exact ⟨20000, by rw [← hq2]; norm_num⟩
  · intro r hr
    rw [hrows] at hr
    simp only [List.mem_singleton] at hr
    subst hr
    rfl
  · intro r hr
    rw [hrows] at hr
    simp only [List.mem_singleton] at hr
    subst hr
    rfl

/-! ## Claim C1 -/

/-- C1: a filter dimension whose selected set is empty imposes no
restriction: with no models (resp. transmissions, fuel types) selected,
that dimension's filtering step returns the view unchanged, over every
column layout, every selection and every view. -/
theorem c1_empty_selection_unrestricted (c : Cols) (s : Selection) (v : List Row) :
    modelStep c { s with models := [] } v = .ok v ∧
      transStep c { s with trans := [] } v = .ok v ∧
      fuelStep c { s with fuels := [] } v = .ok v :=
  ⟨catStep_empty c.hasModel "model" Row.model v,
   catStep_empty c.hasTransmission "transmission" Row.transmission v,
   catStep_empty c.hasFuelType "fuelType" Row.fuelType v⟩

/-! ## Claim C2 -/

/-- C2: every successfully filtered view is a sublist of the dataset's
rows: each row of the view is a row of the dataset, no row is fabricated
or duplicated beyond its multiplicity there, and rows keep their
original relative order. -/
theorem c2_view_is_sublist (d : Dataset) (s : Selection) (v : List Row)
    (h : applyFilters d s = .ok v) : List.Sublist v d.rows :=
  applyFilters_sublist h

/-- C2 witness: the section-8 example, evaluated. -/
theorem c2_witness :
    applyFilters (load exTable) exSel = .ok [exRowX5] ∧
      List.Sublist [exRowX5] (load exTable).rows :=
  ⟨by decide, c2_view_is_sublist (load exTable) exSel [exRowX5] (by decide)⟩

/-! ## Claim C3 -/

/-- C3: the loader maps non-numeric text in a numeric column to the
missing marker (never raising — `load` is total by construction), every
loaded row is the column-wise coercion of a source row, and every loaded
row has a present `price` and `year` whenever those columns exist. -/
theorem c3_load_coercion_and_drop (t : RawTable) :
    (∀ s0 : String, toNumeric (.text s0) = none) ∧
      (∀ r ∈ (load t).rows, ∃ raw ∈ t.rows, r = loadRow t.cols raw) ∧
      ∀ r ∈ (load t).rows,
        (t.cols.hasPrice = true → r.price.isSome = true) ∧
        (t.cols.hasYear = true → r.year.isSome = true) := by
  refine ⟨fun s0 => rfl, fun r hr => (load_mem hr).2, fun r hr => ?_⟩
  have hl := (load_mem hr).1
  exact ⟨hl.2.2.2.2.2.2.2.2.2.2.1, hl.2.2.2.2.2.2.2.2.2.2.2⟩

/-- C3 witness: the loaded example row has present numeric price and
year. -/
theorem c3_witness :
    exRowX5 ∈ (load exTable).rows ∧
      (exTable.cols.hasPrice = true → exRowX5.price.isSome = true) ∧
      (exTable.cols.hasYear = true → exRowX5.year.isSome = true) :=
  ⟨by decide, (c3_load_coercion_and_drop exTable).2.2 exRowX5 (by decide)⟩

/-! ## Claim C5 -/

/-- C5: both range filters are inclusive on both bounds: a row of the
view whose year (resp. price) equals the selected lower or upper bound
passes that range filter. -/
theorem c5_range_inclusive (c : Cols) (s : Selection) (v : List Row) (r : Row)
    (hmem : r ∈ v) :
    (c.hasYear = true → s.yearLo ≤ s.yearHi →
      (r.year = some (s.yearLo : ℚ) ∨ r.year = some (s.yearHi : ℚ)) →
      r ∈ yearStep c s v) ∧
    (c.hasPrice = true → s.priceLo ≤ s.priceHi →
      (r.price = some (s.priceLo : ℚ) ∨ r.price = some (s.priceHi : ℚ)) →
      r ∈ priceStep c s v) := by
  constructor
  · intro hflag hle hor
    rw [yearStep, hflag]
    simp only [rangeStep, if_true]
    rw [List.mem_filter]
    refine ⟨hmem, ?_⟩
    cases hor with
    | inl h =>
      rw [yearPred_some h]
      exact ⟨le_refl _, by exact_mod_cast hle⟩
    | inr h =>
      rw [yearPred_some h]
      exact ⟨by exact_mod_cast hle, le_refl _⟩
  · intro hflag hle hor
    rw [priceStep, hflag]
    simp only [rangeStep, if_true]
    rw [List.mem_filter]
    refine ⟨hmem, ?_⟩
    cases hor with
    | inl h =>
      rw [pricePred_some h]
      exact ⟨le_refl _, by exact_mod_cast hle⟩
    | inr h =>
      rw [pricePred_some h]
      exact ⟨by exact_mod_cast hle, le_refl _⟩

/-- C5 witness: the example row sits exactly on the lower year bound and
the lower price bound of `edgeSel` and passes both range filters. -/
theorem c5_witness :
    exRowX5 ∈ yearStep exTable.cols edgeSel [exRowX5] ∧
      exRowX5 ∈ priceStep exTable.cols edgeSel [exRowX5] :=
  ⟨(c5_range_inclusive exTable.cols edgeSel [exRowX5] exRowX5 (by decide)).1
      rfl (by decide) (Or.inl (by decide)),
   (c5_range_inclusive exTable.cols edgeSel [exRowX5] exRowX5 (by decide)).2
      rfl (by decide) (Or.inl (by decide))⟩

/-! ## Claim C6 -/

/-- C6: on an empty filtered view the average-price metric yields exactly
0 — not an error and not a missing value — and so does the
average-mileage metric when the mileage column exists. -/
theorem c6_empty_view_zero_mean (c : Cols) :
    avgPrice c [] = .ok 0 ∧ (c.hasMileage = true → avgMileage c [] = .ok 0) :=
  ⟨rfl, fun _ => rfl⟩

/-- C6 witness: both metrics evaluated on the empty view. -/
theorem c6_witness :
    avgPrice { hasMileage := true } [] = .ok 0 ∧
      avgMileage { hasMileage := true } [] = .ok 0 :=
  ⟨(c6_empty_view_zero_mean { hasMileage := true }).1,
   (c6_empty_view_zero_mean { hasMileage := true }).2 rfl⟩

/-! ## Claim C7 -/

/-- C7 refuted (code bug): on a dataset without a `model` column the
dashboard run fails — the per-model counts of app.py line 88 access
`df_filtered["model"]` unguarded and raise `KeyError`, although the spec
requires all display logic to tolerate the column's absence.  Every part
of the pipeline before that access succeeds on this input. -/
theorem c7_missing_model_crashes_display :
    runApp noModelTable noModelSel = .error "KeyError: model" ∧
      modelCounts (load noModelTable).cols (load noModelTable).rows =
        .error "KeyError: model" ∧
      (∃ v, applyFilters (load noModelTable) noModelSel = .ok v) ∧
      (load noModelTable).rows ≠ [] := by
  refine ⟨by decide, by decide, ⟨(load noModelTable).rows, by decide⟩, by decide⟩

/-! ## Claim C8 -/

/-- C8: over any dataset and any selection the sidebar can produce (each
selected set drawn from the option list the dataset offers), the filter
chain raises nothing; and a degenerate year or price range (lo > hi)
yields the empty view rather than raising. -/
theorem c8_total_and_degenerate (d : Dataset) (s : Selection) (h : SelOk d s) :
    (∃ v, applyFilters d s = .ok v) ∧
      (d.cols.hasYear = true → s.yearLo > s.yearHi → applyFilters d s = .ok []) ∧
      (d.cols.hasPrice = true → s.priceLo > s.priceHi → applyFilters d s = .ok []) :=
  ⟨applyFilters_ok h,
   fun hy hlt => applyFilters_degenerate_year h hy hlt,
   fun hp hlt => applyFilters_degenerate_price h hp hlt⟩

/-- C8 witness: the degenerate year range [2021, 2020] on the example
table filters to the empty view. -/
theorem c8_witness :
    SelOk (load exTable) degSel ∧ applyFilters (load exTable) degSel = .ok [] := by
  have hok : SelOk (load exTable) degSel :=
    ⟨List.nil_subset _, List.nil_subset _, List.nil_subset _⟩
  exact ⟨hok, (c8_total_and_degenerate (load exTable) degSel hok).2.1 rfl (by decide)⟩

/-! ## Claim C9 -/

/-- C9 counterexample: a view row whose model is the empty string
(loaded from a whitespace-only CSV cell) does not survive export and
reload — `to_csv` writes it as an empty field, `read_csv` reads that
back as missing, and `astype(str)` renders it as the string "nan" — so
the reloaded dataset differs from the exported view field-for-field,
refuting the claim as universally stated. -/
theorem c9_counterexample :
    applyFilters (load blankModelTable) blankSel = .ok [blankRow] ∧
      blankRow.model = some "" ∧
      (load (exportView (load blankModelTable).cols [blankRow])).rows.map Row.model
        = [some "nan"] ∧
      load (exportView (load blankModelTable).cols [blankRow]) ≠
        ⟨(load blankModelTable).cols, [blankRow]⟩ := by
  decide

/-- C9 (amended): round trip — exporting a filtered view as a CSV with
the view's column set and re-parsing it with the loader yields a dataset
whose rows are exactly the view's rows, provided no categorical cell of
the view (model, transmission, fuelType) holds a string the CSV reader
treats as missing (the empty string or an NA sentinel such as "NA",
"N/A" or "nan"); such a cell instead collapses to missing — and, in the
model column, to the string "nan" — on re-parse.  Numeric formatting is
abstracted, as the claim allows. -/
theorem c9_export_reload_round_trip (t : RawTable) (s : Selection) (v : List Row)
    (h : applyFilters (load t) s = .ok v)
    (hna : ∀ r ∈ v, noNaCell r.model = true ∧ noNaCell r.transmission = true ∧
      noNaCell r.fuelType = true) :
    load (exportView (load t).cols v) = ⟨(load t).cols, v⟩ :=
  load_exportView (fun _ hr => (load_mem ((applyFilters_sublist h).subset hr)).1) hna

/-- C9 witness: the example view has no NA-sentinel cells and
round-trips through export and reload. -/
theorem c9_witness :
    applyFilters (load exTable) exSel = .ok [exRowX5] ∧
      load (exportView (load exTable).cols [exRowX5]) =
        ⟨(load exTable).cols, [exRowX5]⟩ :=
  ⟨by decide,
   c9_export_reload_round_trip exTable exSel [exRowX5] (by decide) (by decide)⟩

/-! ## Claim C10 -/

/-- C10: when the `year` or `price` column exists, the slider-bound
computation run at startup fails on a dataset that loaded zero rows
(`int()` of an empty column's min is `int(NaN)`), and succeeds whenever
at least one row survived loading. -/
theorem c10_startup_requires_nonempty (t : RawTable)
    (h : t.cols.hasYear = true ∨ t.cols.hasPrice = true) :
    ((load t).rows = [] → ∃ e, startupBounds (load t) = .error e) ∧
      ((load t).rows ≠ [] → ∃ b, startupBounds (load t) = .ok b) := by
  constructor
  · intro hnil
    have hc : (load t).cols = t.cols := rfl
    unfold startupBounds yearBounds priceBounds
    rw [hc, hnil]
    simp only [List.filterMap_nil]
    cases hy : t.cols.hasYear with
    | true =>
      refine ⟨"ValueError: cannot convert float NaN to integer", ?_⟩
      simp [colBounds, bind, Except.bind]
    | false =>
      have hp : t.cols.hasPrice = true := by
        cases h with
        | inl h1 => rw [h1] at hy; cases hy
        | inr h2 => exact h2
      refine ⟨"ValueError: cannot convert float NaN to integer", ?_⟩
      rw [hp]
      simp [colBounds, bind, Except.bind]
  · intro hne
    obtain ⟨r, hr⟩ := List.exists_mem_of_ne_nil _ hne
    have hl := (load_mem hr).1
    have hyv : t.cols.hasYear = true → (load t).rows.filterMap Row.year ≠ [] := by
      intro hy
      obtain ⟨q, hq⟩ := Option.isSome_iff_exists.mp (hl.2.2.2.2.2.2.2.2.2.2.2 hy)
      exact List.ne_nil_of_mem (List.mem_filterMap.mpr ⟨r, hr, hq⟩)
    have hpv : t.cols.hasPrice = true → (load t).rows.filterMap Row.price ≠ [] := by
      intro hp
      obtain ⟨q, hq⟩ := Option.isSome_iff_exists.mp (hl.2.2.2.2.2.2.2.2.2.2.1 hp)
      exact List.ne_nil_of_mem (List.mem_filterMap.mpr ⟨r, hr, hq⟩)
    obtain ⟨yb, hyb⟩ := colBounds_ok_of_ne_nil t.cols.hasYear hyv
    obtain ⟨pb, hpb⟩ := colBounds_ok_of_ne_nil t.cols.hasPrice hpv
    have hyb2 : yearBounds (load t) = .ok yb := hyb
    have hpb2 : priceBounds (load t) = .ok pb := hpb
    refine ⟨(yb, pb), ?_⟩
    unfold startupBounds
    simp [hyb2, hpb2, bind, Except.bind, pure, Except.pure]

/-- C10 witness: a table whose sole row is dropped at load (non-numeric
price) makes the bound computation fail; the example table makes it
succeed. -/
theorem c10_witness :
    (∃ e, startupBounds (load droppedTable) = .error e) ∧
      ∃ b, startupBounds (load exTable) = .ok b :=
  ⟨(c10_startup_requires_nonempty droppedTable (Or.inl rfl)).1 (by decide),
   (c10_startup_requires_nonempty exTable (Or.inl rfl)).2 (by decide)⟩
